import Mathlib

/-!
Shallow embedding of cedit.py: a launcher that opens files in a configured
editor, wrapping the invocation in an elevation command when a target path
is not writable by the current user.

The filesystem and process environment are modelled as an abstract record of
query functions (existence, file type, stat, write access, uid, cwd, PATH),
since the Python code only reads these facts through os calls.  Every
definition below is a direct translation of the corresponding function in
src/cedit.py; fallible code (sys.exit, uncaught exceptions) is modelled with
Option, where none stands for the failure exit.
-/

/-- Result of os.stat: the only field the program reads is st_uid. -/
structure FileStat where
  st_uid : Nat
deriving DecidableEq

/-- Abstract view of the filesystem and environment, covering exactly the
queries cedit.py performs: os.path.exists, os.path.isfile, os.path.islink,
os.stat (none models OSError), os.access(path, W_OK), os.getuid, os.getcwd,
and the PATH environment variable with execute-permission bits (the last two
are consulted only by the specification model of the resolver). -/
structure FileSys where
  uid : Nat
  cwd : String
  pexists : String → Bool
  isfile : String → Bool
  islink : String → Bool
  stat : String → Option FileStat
  access_w : String → Bool
  pathEnv : String
  execBit : String → Bool

/-- Whether the first list is an initial segment of the second; used to
model the Python string tests startswith and endswith on character lists
(the built-in String versions do not reduce in the kernel). -/
def listPrefixOf : List Char → List Char → Bool
  | [], _ => true
  | _ :: _, [] => false
  | a :: as, b :: bs => a = b && listPrefixOf as bs

/-- Python str.startswith. -/
def pyStartsWith (s pre : String) : Bool :=
  listPrefixOf pre.toList s.toList

/-- Python str.endswith. -/
def pyEndsWith (s suf : String) : Bool :=
  listPrefixOf suf.toList.reverse s.toList.reverse

/-- Split a character list at every separator, keeping empty pieces, like
Python str.split with an explicit separator character. -/
def splitChars (p : Char → Bool) : List Char → List (List Char)
  | [] => [[]]
  | c :: cs =>
    let r := splitChars p cs
    if p c then [] :: r
    else
      match r with
      | [] => [[c]]
      | piece :: rest => (c :: piece) :: rest

/-- Python str.split(sep) for a one-character separator: splits at every
occurrence and keeps empty pieces. -/
def pySplitChar (sep : Char) (s : String) : List String :=
  (splitChars (fun c => c = sep) s.toList).map String.mk

/-- Python chr(32).join. -/
def joinSpace : List String → String
  | [] => ""
  | [x] => x
  | x :: xs => x ++ " " ++ joinSpace xs

/-- Python os.path.split(p)[0] for POSIX paths: the text up to the last
slash, with trailing slashes stripped unless the head is all slashes. -/
def ospathSplitHead (p : String) : String :=
  let head := (p.toList.reverse.dropWhile (fun c => c ≠ '/')).reverse
  if head.isEmpty then ""
  else if head.all (fun c => c = '/') then String.mk head
  else String.mk (head.reverse.dropWhile (fun c => c = '/')).reverse

/-- Python os.path.join(a, b) for POSIX paths, two-argument form as used in
cedit.py: an absolute second component discards the first. -/
def ospathJoin (a b : String) : String :=
  if pyStartsWith b "/" then b
  else if a = "" || pyEndsWith a "/" then a ++ b
  else a ++ "/" ++ b

/-- Python str.split() with no argument: split on whitespace runs, dropping
empty pieces. -/
def pySplitWs (s : String) : List String :=
  (splitChars (fun c => c.isWhitespace) s.toList).map String.mk
    |>.filter (fun piece => piece ≠ "")

/-- can_write from cedit.py: os.access(filename, os.W_OK). -/
def can_write (fs : FileSys) (filename : String) : Bool :=
  fs.access_w filename

/-- The statpath local variable of needs_root: the path itself when it
exists, otherwise os.path.split(path)[0], falling back to os.getcwd() when
that head is empty (Python: if not statpath). -/
def statPath (fs : FileSys) (sfilename : String) : String :=
  if fs.pexists sfilename then sfilename
  else
    let statpath := ospathSplitHead sfilename
    if statpath = "" then fs.cwd else statpath

/-- The try block of needs_root: stat the chosen path; a root-owned path
needs root, otherwise root is needed exactly when the path is not writable;
an OSError from stat (modelled as none), or any other exception, yields
true. -/
def statVerdict (fs : FileSys) (statpath : String) : Bool :=
  match fs.stat statpath with
  | some st => if st.st_uid = 0 then true else !(can_write fs statpath)
  | none => true

/-- needs_root from cedit.py: the superuser never needs elevation; otherwise
classify the stat path (the file, its parent directory head, or the cwd). -/
def needs_root (fs : FileSys) (sfilename : String) : Bool :=
  if fs.uid = 0 then false
  else statVerdict fs (statPath fs sfilename)

/-- The persistent configuration: a flat association of option name to
string value, as stored by EasySettings.  get returns the empty string for
a missing key (the code always treats empty as unset). -/
abbrev Settings : Type := List (String × String)

/-- settings.get(option): the stored value, or the empty string. -/
def Settings.get (st : Settings) (k : String) : String :=
  match List.find? (fun kv => kv.1 = k) st with
  | some kv => kv.2
  | none => ""

/-- The pure effect of settings.setsave(option, value) on the stored
mapping: replace the binding for the key, or append it. -/
def Settings.setVal : Settings → String → String → Settings
  | [], k, v => [(k, v)]
  | kv :: rest, k, v =>
      if kv.1 = k then (k, v) :: rest else kv :: Settings.setVal rest k v

/-- The hard-coded list of common editors tried by get_editor_default. -/
def lst_editors : List String :=
  ["subl", "kate", "gedit", "leafpad", "kwrite"]

/-- The hard-coded list of common elevation commands tried by
get_elevcmd_default. -/
def lst_elevs : List String :=
  ["kdesudo", "gksudo", "sudo"]

/-- get_editor_default from cedit.py: scan /usr/bin/ for the first common
editor that is a regular file or a symlink; none models the sys.exit(1)
taken when nothing is found. -/
def get_editor_default (fs : FileSys) : Option (List String) :=
  (lst_editors.find? (fun editor =>
      let spath := ospathJoin "/usr/bin/" editor
      fs.isfile spath || fs.islink spath)).map
    (fun editor => [ospathJoin "/usr/bin/" editor])

/-- get_editor from cedit.py: the configured editor string is split on
whitespace; the first word is accepted if it is a file or symlink, else
retried under /usr/bin; none models sys.exit(1) (editor not found), and
also the uncaught IndexError when the configured string is all
whitespace. -/
def get_editor (fs : FileSys) (st : Settings) : Option (List String) :=
  let editorstr := st.get "editor"
  if editorstr = "" then get_editor_default fs
  else
    match pySplitWs editorstr with
    | [] => none
    | a0 :: rest =>
      if fs.isfile a0 || fs.islink a0 then some (a0 :: rest)
      else
        let spath := ospathJoin "/usr/bin" a0
        if fs.isfile spath || fs.islink spath then some (spath :: rest)
        else none

/-- get_elevcmd_default from cedit.py: scan /usr/bin/ for the first common
elevation command; none models sys.exit(1). -/
def get_elevcmd_default (fs : FileSys) : Option (List String) :=
  (lst_elevs.find? (fun elevcmd =>
      let spath := ospathJoin "/usr/bin/" elevcmd
      fs.isfile spath || fs.islink spath)).map
    (fun elevcmd => [ospathJoin "/usr/bin/" elevcmd])

/-- get_elevcmd from cedit.py: like get_editor but the configured string is
split with str.split(chr 32), which keeps empty pieces. -/
def get_elevcmd (fs : FileSys) (st : Settings) : Option (List String) :=
  let elevcmdstr := st.get "elevcmd"
  if elevcmdstr = "" then get_elevcmd_default fs
  else
    match pySplitChar ' ' elevcmdstr with
    | [] => none
    | a0 :: rest =>
      if fs.isfile a0 || fs.islink a0 then some (a0 :: rest)
      else
        let spath := ospathJoin "/usr/bin" a0
        if fs.isfile spath || fs.islink spath then some (spath :: rest)
        else none

/-- set_setting_safe from cedit.py.  Result: none models the uncaught
IndexError on an all-whitespace value; some (code, settings, wrote) gives
the returned exit code, the resulting stored mapping, and whether
settings.setsave was invoked (the disk write is assumed to succeed, as the
claims only concern the pure state). -/
def set_setting_safe (fs : FileSys) (st : Settings) (opt val : String) :
    Option (Nat × Settings × Bool) :=
  let oldval := st.get opt
  if oldval = val then some (1, st, false)
  else
    match pySplitWs val with
    | [] => none
    | a0 :: rest =>
      if fs.isfile a0 then some (0, st.setVal opt val, true)
      else
        let a0sub := ospathJoin "/usr/bin" a0
        if fs.isfile a0sub then
          some (0, st.setVal opt (joinSpace (a0sub :: rest)), true)
        else some (1, st, false)

/-- The truthiness test of the Python dispatch line: elif argd of the
editor flag.  docopt yields none when the flag is absent and the raw string
when present; an empty string is falsy, so the setter branch is skipped. -/
def editor_flag_selected : Option String → Bool
  | none => false
  | some s => s ≠ ""

/-- The editor-path fixup at the top of shell_file: a name that is not
absolute and not a file is retried under /usr/bin (string formatting, not
os.path.join, in the source). -/
def resolveEditorExe (fs : FileSys) (editor : String) : String :=
  if !(pyStartsWith editor "/") && !(fs.isfile editor) then
    "/usr/bin/" ++ editor
  else editor

/-- The resolved editor executable that shell_file will place in the
command: head of get_editor, after the /usr/bin fixup. -/
def editor_exe (fs : FileSys) (st : Settings) : Option String :=
  (get_editor fs st).bind (fun ue => ue.head?.map (resolveEditorExe fs))

/-- shell_file from cedit.py, restricted to the argv it builds (running the
child is outside the pure model).  none models each early return 1 or
sys.exit path: editor not found, or get_editor or get_elevcmd failing.
The elevation command is fetched and prepended once, at the first filename
for which needs_root holds; the filenames are appended next, and the
pass-through EDITORARGS are appended last. -/
def shell_file_cmd (fs : FileSys) (st : Settings)
    (filenames editorargs : List String) : Option (List String) :=
  match get_editor fs st with
  | none => none
  | some usereditor =>
    match usereditor with
    | [] => none
    | e0 :: rest =>
      let editor := resolveEditorExe fs e0
      if fs.isfile editor = false then none
      else if filenames.any (needs_root fs) then
        match get_elevcmd fs st with
        | none => none
        | some elevcmdargs =>
            some (elevcmdargs ++ (editor :: rest) ++ filenames ++ editorargs)
      else some ((editor :: rest) ++ filenames ++ editorargs)

/-- check_file from cedit.py: an existing file or directory passes; for a
missing path the user is asked whether to continue, modelled by the answers
oracle (true iff the stripped lowered response starts with y). -/
def check_file (fs : FileSys) (answers : String → Bool)
    (filename : String) : Bool :=
  if fs.isfile filename then true
  else if fs.pexists filename then true
  else answers filename

/-- check_files from cedit.py: stop at the first file the user declines. -/
def check_files (fs : FileSys) (answers : String → Bool) :
    List String → Bool
  | [] => true
  | f :: rest =>
      if check_file fs answers f then check_files fs answers rest else false

/-- The tail of main for the open action (non-shellall): when quiet is set
or every file passes check_files, shell_file runs and its code is returned;
otherwise main falls through and returns no value, modelled as none. -/
def main_open (fs : FileSys) (st : Settings) (answers : String → Bool)
    (quiet : Bool) (filenames editorargs : List String) : Option Nat :=
  if quiet || check_files fs answers filenames then
    some (match shell_file_cmd fs st filenames editorargs with
          | some _ => 0
          | none => 1)
  else none

/-- Python sys.exit applied to the value returned by main: an integer is
the exit status, and the None of a fall-through return means status 0. -/
def sys_exit_code : Option Nat → Nat
  | some n => n
  | none => 0

/-- find_filename from cedit.py: an existing path is returned as is;
otherwise the first existing join of a cedit search directory with the name
wins; otherwise the original string comes back. -/
def find_filename (fs : FileSys) (ceditpaths : List String) (s : String) :
    String :=
  if fs.pexists s then s
  else
    match (ceditpaths.map (fun p => ospathJoin p s)).find? fs.pexists with
    | some ceditpath => ceditpath
    | none => s

/-- Modelled from the spec, section 4.2: the executability test of the
specified Executable Resolver, a regular file with at least one execute
bit. This generic resolver does not exist in src/cedit.py; it is written
here from the words of the spec so the resolver claims can be compared
against the code. -/
def spec_is_executable (fs : FileSys) (p : String) : Bool :=
  fs.isfile p && fs.execBit p

/-- Modelled from the spec, section 4.2: return an existing executable
input unchanged, otherwise split the PATH environment variable on the path
separator and return the first directory/name join that is executable;
none when nothing matches. -/
def resolver_spec_model (fs : FileSys) (name : String) : Option String :=
  if fs.pexists name && spec_is_executable fs name then some name
  else
    ((pySplitChar ':' fs.pathEnv).map (fun d => ospathJoin d name)).find?
      (spec_is_executable fs)

/-! Helper lemmas about list prefixes of the built argv. -/

/-- Taking the length of the left part of an append returns that part. -/
theorem takeAppendLen {α : Type} (l₁ l₂ : List α) :
    (l₁ ++ l₂).take l₁.length = l₁ := by
  induction l₁ with
  | nil => rfl
  | cons a as ih => simp [ih]

/-- Dropping the length of the left part of an append returns the right
part. -/
theorem dropAppendLen {α : Type} (l₁ l₂ : List α) :
    (l₁ ++ l₂).drop l₁.length = l₂ := by
  induction l₁ with
  | nil => rfl
  | cons a as ih => simp [ih]

/-! Concrete filesystem and configuration fixtures used to witness and to
refute the claims.  Each is an ordinary member of the abstract state space
of the embedding. -/

/-- A non-root process looking at a root-owned file f that the user can
nevertheless write (for example a world-writable root-owned file). -/
def fsA : FileSys where
  uid := 1000
  cwd := "/home/u"
  pexists := fun s => s = "f"
  isfile := fun s => s = "f"
  islink := fun _ => false
  stat := fun s => if s = "f" then some ⟨0⟩ else none
  access_w := fun s => s = "f"
  pathEnv := ""
  execBit := fun _ => false

/-- Configuration with only the editor set to an absolute path. -/
def stB : Settings := [("editor", "/usr/bin/ed")]

/-- A non-root process with a user-owned writable file g and the configured
editor present. -/
def fsB : FileSys where
  uid := 1000
  cwd := "/home/u"
  pexists := fun s => s = "g" || s = "/usr/bin/ed"
  isfile := fun s => s = "g" || s = "/usr/bin/ed"
  islink := fun _ => false
  stat := fun s => if s = "g" then some ⟨1000⟩ else none
  access_w := fun s => s = "g"
  pathEnv := ""
  execBit := fun _ => false

/-- Configuration with an editor and an elevation command, both absolute. -/
def stC : Settings := [("editor", "/usr/bin/ed"), ("elevcmd", "/usr/bin/sudo")]

/-- A non-root process with a root-owned unwritable file rf, so opening it
needs elevation, and both configured commands present. -/
def fsC : FileSys where
  uid := 1000
  cwd := "/home/u"
  pexists := fun s => s = "rf" || s = "/usr/bin/ed" || s = "/usr/bin/sudo"
  isfile := fun s => s = "rf" || s = "/usr/bin/ed" || s = "/usr/bin/sudo"
  islink := fun _ => false
  stat := fun s => if s = "rf" then some ⟨0⟩ else none
  access_w := fun _ => false
  pathEnv := ""
  execBit := fun _ => false

/-- A non-root process where neither the target d/f nor its parent d
exists, while the working directory exists, is user-owned and writable. -/
def fsD : FileSys where
  uid := 1000
  cwd := "/home/u"
  pexists := fun s => s = "/home/u"
  isfile := fun _ => false
  islink := fun _ => false
  stat := fun s => if s = "/home/u" then some ⟨1000⟩ else none
  access_w := fun s => s = "/home/u"
  pathEnv := ""
  execBit := fun _ => false

/-- A non-root process where directory pd exists, is user-owned and
writable, and pd/new does not exist yet. -/
def fsE : FileSys where
  uid := 1000
  cwd := "/home/u"
  pexists := fun s => s = "pd"
  isfile := fun _ => false
  islink := fun _ => false
  stat := fun s => if s = "pd" then some ⟨1000⟩ else none
  access_w := fun s => s = "pd"
  pathEnv := ""
  execBit := fun _ => false

/-- A non-root process where path x exists but every stat call fails with
an OS error. -/
def fsF : FileSys where
  uid := 1000
  cwd := "/"
  pexists := fun s => s = "x"
  isfile := fun _ => false
  islink := fun _ => false
  stat := fun _ => none
  access_w := fun _ => false
  pathEnv := ""
  execBit := fun _ => false

/-- Configuration naming a bare editor command that is not under /usr/bin. -/
def stG : Settings := [("editor", "myed")]

/-- A filesystem where the only executable lives in /opt/bin, which is on
the search path, and nothing matching exists under /usr/bin. -/
def fsG : FileSys where
  uid := 1000
  cwd := "/"
  pexists := fun s => s = "/opt/bin/myed"
  isfile := fun s => s = "/opt/bin/myed"
  islink := fun _ => false
  stat := fun _ => none
  access_w := fun _ => false
  pathEnv := "/opt/bin"
  execBit := fun s => s = "/opt/bin/myed"

/-- Configuration naming bare commands that resolve under /usr/bin. -/
def stH : Settings := [("editor", "myed"), ("elevcmd", "myelev")]

/-- A filesystem where the bare configured names exist only as files under
/usr/bin. -/
def fsH : FileSys where
  uid := 1000
  cwd := "/"
  pexists := fun s => s = "/usr/bin/myed" || s = "/usr/bin/myelev"
  isfile := fun s => s = "/usr/bin/myed" || s = "/usr/bin/myelev"
  islink := fun _ => false
  stat := fun _ => none
  access_w := fun _ => false
  pathEnv := ""
  execBit := fun _ => false

/-- C1: the claim states that needs_root is false for every path the
current non-superuser user can write, regardless of owner.  Counterexample:
in fsA the user can write the root-owned file f, yet needs_root is true,
because the code tests root ownership before the write-access check. -/
theorem needs_root_true_on_writable_root_owned :
    fsA.uid ≠ 0 ∧ fsA.pexists "f" = true ∧ fsA.access_w "f" = true ∧
    needs_root fsA "f" = true := by
  decide

/-- C1 (amended): for a non-superuser, an existing path that stat reports
as owned by a non-root uid and that the user can write is classified as not
needing elevation. -/
theorem needs_root_false_of_writable_nonroot_owner
    (fs : FileSys) (s : String) (st0 : FileStat)
    (h0 : fs.uid ≠ 0) (hex : fs.pexists s = true)
    (hst : fs.stat s = some st0) (hu : st0.st_uid ≠ 0)
    (hw : fs.access_w s = true) :
    needs_root fs s = false := by
  simp [needs_root, statVerdict, statPath, can_write, h0, hex, hst, hu, hw]

/-- C1 (witness): the amended theorem applied to the user-owned writable
file g of fsB. -/
theorem needs_root_false_of_writable_nonroot_owner_witness :
    needs_root fsB "g" = false :=
  needs_root_false_of_writable_nonroot_owner fsB "g" ⟨1000⟩ (by decide)
    (by decide) (by decide) (by decide) (by decide)

/-- C4: the claim states that a missing parent makes needs_root fall back
to classifying the current working directory.  Counterexample: in fsD the
path d/f and its parent d are both missing; the working directory
classifies as not needing elevation, yet needs_root on d/f is true, because
the failing stat on d is answered with true and the cwd is never
consulted. -/
theorem needs_root_missing_parent_no_cwd_fallback :
    fsD.pexists "d/f" = false ∧ fsD.pexists "d" = false ∧
    fsD.stat "d" = none ∧ needs_root fsD fsD.cwd = false ∧
    needs_root fsD "d/f" = true := by
  decide

/-- C4 (amended): for a non-superuser and a non-existent path, needs_root
classifies the head of os.path.split, using the current working directory
only when that head is empty; a failing stat on the parent (in particular a
missing parent) yields true, and an existing non-root-owned parent yields
the negation of its writability. -/
theorem needs_root_nonexistent_parent_rule (fs : FileSys) (s : String)
    (h0 : fs.uid ≠ 0) (hne : fs.pexists s = false) :
    (ospathSplitHead s = "" → needs_root fs s = statVerdict fs fs.cwd)
    ∧ (ospathSplitHead s ≠ "" →
        (fs.stat (ospathSplitHead s) = none → needs_root fs s = true)
        ∧ (∀ st0, fs.stat (ospathSplitHead s) = some st0 → st0.st_uid ≠ 0 →
            needs_root fs s = !(fs.access_w (ospathSplitHead s)))) := by
  have hsp : statPath fs s =
      if ospathSplitHead s = "" then fs.cwd else ospathSplitHead s := by
    simp [statPath, hne]
  refine ⟨?_, ?_⟩
  · intro hh
    simp [needs_root, h0, hsp, hh]
  · intro hh
    refine ⟨?_, ?_⟩
    · intro hstat
      simp [needs_root, h0, hsp, hh, statVerdict, hstat]
    · intro st0 hstat hu
      simp [needs_root, h0, hsp, hh, statVerdict, hstat, hu, can_write]

/-- C4 (witness): the amended theorem applied to the new path pd/new of
fsE, whose parent pd exists, is user-owned and writable. -/
theorem needs_root_nonexistent_parent_rule_witness :
    needs_root fsE "pd/new" = false := by
  have h :=
    (needs_root_nonexistent_parent_rule fsE "pd/new" (by decide)
      (by decide)).2 (by decide)
  rw [h.2 ⟨1000⟩ (by decide) (by decide)]
  decide

/-- C5: for a non-superuser, when the stat call on the chosen stat path
fails with an OS error, needs_root returns true instead of propagating the
error. -/
theorem needs_root_true_of_stat_failure (fs : FileSys) (s : String)
    (h0 : fs.uid ≠ 0) (he : fs.stat (statPath fs s) = none) :
    needs_root fs s = true := by
  simp [needs_root, statVerdict, h0, he]

/-- C5 (witness): the theorem applied to fsF, where every stat fails. -/
theorem needs_root_true_of_stat_failure_witness :
    needs_root fsF "x" = true :=
  needs_root_true_of_stat_failure fsF "x" (by decide) (by decide)

/-- C2: in the argv built by shell_file for a batch of target paths, if any
path needs root then the elevation command args occupy the front exactly
once, with the elevation executable at position 0 and the resolved editor
executable immediately after the elevation prefix; if no path needs root,
the editor executable is at position 0. -/
theorem shell_file_elevation_prefix_positions (fs : FileSys) (st : Settings)
    (fns eargs argv : List String)
    (h : shell_file_cmd fs st fns eargs = some argv) :
    (fns.any (needs_root fs) = true →
      ∀ ec0 ecrest, get_elevcmd fs st = some (ec0 :: ecrest) →
        argv.head? = some ec0 ∧
        argv.take (ec0 :: ecrest).length = ec0 :: ecrest ∧
        (argv.drop (ec0 :: ecrest).length).head? = editor_exe fs st)
    ∧ (fns.any (needs_root fs) = false → argv.head? = editor_exe fs st) := by
  unfold shell_file_cmd at h
  rcases hge : get_editor fs st with _ | ue
  · simp [hge] at h
  rcases ue with _ | ⟨e0, rest⟩
  · simp [hge] at h
  simp only [hge] at h
  by_cases hif : fs.isfile (resolveEditorExe fs e0) = false
  · simp [hif] at h
  rw [if_neg hif] at h
  by_cases hany : fns.any (needs_root fs) = true
  · rw [if_pos hany] at h
    rcases hec : get_elevcmd fs st with _ | ec
    · simp [hec] at h
    simp only [hec, Option.some.injEq] at h
    refine ⟨?_, ?_⟩
    · intro _ ec0 ecrest hec2
      have hecs : ec = ec0 :: ecrest := by
        injection hec2
      subst hecs
      refine ⟨?_, ?_, ?_⟩
      · rw [← h]; rfl
      · rw [← h, List.append_assoc, List.append_assoc]
        exact takeAppendLen _ _
      · rw [← h, List.append_assoc, List.append_assoc, dropAppendLen]
        simp [editor_exe, hge]
    · intro hc
      rw [hc] at hany
      simp at hany
  · rw [if_neg hany] at h
    simp only [Option.some.injEq] at h
    refine ⟨?_, ?_⟩
    · intro hc
      exact absurd hc hany
    · intro _
      rw [← h]
      simp [editor_exe, hge]

/-- C2 (witness): the theorem applied to fsC, where the root-owned file rf
forces elevation through /usr/bin/sudo in front of /usr/bin/ed. -/
theorem shell_file_elevation_prefix_positions_witness :
    (["/usr/bin/sudo", "/usr/bin/ed", "rf"] : List String).head? =
      some "/usr/bin/sudo" ∧
    ((["/usr/bin/sudo", "/usr/bin/ed", "rf"] : List String).drop 1).head? =
      editor_exe fsC stC :=
  have h :=
    shell_file_elevation_prefix_positions fsC stC ["rf"] []
      ["/usr/bin/sudo", "/usr/bin/ed", "rf"] (by decide)
  have h2 := h.1 (by decide) "/usr/bin/sudo" [] (by decide)
  ⟨h2.1, h2.2.2⟩

/-- C3: the claim fixes the argv order as elevation command and args,
editor and args, pass-through arguments, then target paths.
Counterexample: in fsB with the single writable target g and the
pass-through argument -x, the code builds the editor, then the target path,
then the pass-through argument, so the pass-through argument comes after
the target paths, not before them. -/
theorem shell_file_appends_extra_args_after_files :
    shell_file_cmd fsB stB ["g"] ["-x"] =
      some ["/usr/bin/ed", "g", "-x"] ∧
    (["/usr/bin/ed", "g", "-x"] : List String) ≠
      ["/usr/bin/ed", "-x", "g"] := by
  decide

/-- C3 (amended): the built argv is always the elevation args (only when
some target needs root), then the resolved editor and the editor's saved
args, then all target paths in the order given, then the pass-through
arguments the user supplied after the double dash, in that order. -/
theorem shell_file_cmd_fixed_order (fs : FileSys) (st : Settings)
    (fns eargs ue argv : List String)
    (hge : get_editor fs st = some ue)
    (h : shell_file_cmd fs st fns eargs = some argv) :
    (fns.any (needs_root fs) = true →
      ∀ ec, get_elevcmd fs st = some ec →
        argv = ec ++ resolveEditorExe fs (ue.headD "") :: (ue.tail ++ fns ++ eargs))
    ∧ (fns.any (needs_root fs) = false →
        argv = resolveEditorExe fs (ue.headD "") :: (ue.tail ++ fns ++ eargs)) := by
  unfold shell_file_cmd at h
  rcases ue with _ | ⟨e0, rest⟩
  · simp [hge] at h
  simp only [hge] at h
  by_cases hif : fs.isfile (resolveEditorExe fs e0) = false
  · simp [hif] at h
  rw [if_neg hif] at h
  by_cases hany : fns.any (needs_root fs) = true
  · rw [if_pos hany] at h
    rcases hec : get_elevcmd fs st with _ | ec
    · simp [hec] at h
    simp only [hec, Option.some.injEq] at h
    refine ⟨?_, ?_⟩
    · intro _ ec2 hec2
      have hecs : ec = ec2 := by
        injection hec2
      subst hecs
      rw [← h]
      simp [List.append_assoc]
    · intro hc
      rw [hc] at hany
      simp at hany
  · rw [if_neg hany] at h
    simp only [Option.some.injEq] at h
    refine ⟨?_, ?_⟩
    · intro hc
      exact absurd hc hany
    · intro _
      rw [← h]
      simp

/-- C3 (witness): the amended order theorem applied to fsC, where the
root-owned file rf forces the elevation prefix. -/
theorem shell_file_cmd_fixed_order_witness :
    (["/usr/bin/sudo", "/usr/bin/ed", "rf"] : List String) =
      ["/usr/bin/sudo"] ++
        resolveEditorExe fsC ((["/usr/bin/ed"] : List String).headD "") ::
          ((["/usr/bin/ed"] : List String).tail ++ ["rf"] ++ []) :=
  (shell_file_cmd_fixed_order fsC stC ["rf"] [] ["/usr/bin/ed"]
      ["/usr/bin/sudo", "/usr/bin/ed", "rf"] (by decide) (by decide)).1
    (by decide) ["/usr/bin/sudo"] (by decide)

/-- C6: the claim states that a configured name that is not an existing
path is resolved by searching the PATH environment variable for an
executable match.  Counterexample: in fsG the configured editor myed is not
a path, the PATH search of the specification model finds the executable
/opt/bin/myed, yet get_editor fails (the code only ever retries under
/usr/bin and never reads PATH). -/
theorem get_editor_ignores_search_path :
    stG.get "editor" = "myed" ∧ fsG.isfile "myed" = false ∧
    resolver_spec_model fsG "myed" = some "/opt/bin/myed" ∧
    get_editor fsG stG = none := by
  decide

/-- C6 (amended): for a configured editor or elevation command whose first
word is neither a file nor a symlink, the resolver consults only the
/usr/bin join of that word, testing is-file-or-symlink (not execute
permission), failing when that also misses; the PATH environment variable
is never consulted. -/
theorem resolver_tries_usrbin_only (fs : FileSys) (st : Settings)
    (a0 b0 : String) (arest brest : List String)
    (hednz : st.get "editor" ≠ "")
    (hes : pySplitWs (st.get "editor") = a0 :: arest)
    (he1 : fs.isfile a0 = false) (he2 : fs.islink a0 = false)
    (hcnz : st.get "elevcmd" ≠ "")
    (hcs : pySplitChar ' ' (st.get "elevcmd") = b0 :: brest)
    (hc1 : fs.isfile b0 = false) (hc2 : fs.islink b0 = false) :
    get_editor fs st =
      (if fs.isfile (ospathJoin "/usr/bin" a0)
          || fs.islink (ospathJoin "/usr/bin" a0) then
        some (ospathJoin "/usr/bin" a0 :: arest)
      else none)
    ∧ get_elevcmd fs st =
      (if fs.isfile (ospathJoin "/usr/bin" b0)
          || fs.islink (ospathJoin "/usr/bin" b0) then
        some (ospathJoin "/usr/bin" b0 :: brest)
      else none)
    ∧ (∀ p, get_editor { fs with pathEnv := p } st = get_editor fs st) := by
  refine ⟨?_, ?_, ?_⟩
  · simp [get_editor, hednz, hes, he1, he2]
  · simp [get_elevcmd, hcnz, hcs, hc1, hc2]
  · intro p
    rfl

/-- C6 (witness): the amended theorem applied to fsH, where the bare names
myed and myelev resolve under /usr/bin. -/
theorem resolver_tries_usrbin_only_witness :
    get_editor fsH stH = some ["/usr/bin/myed"] ∧
    get_elevcmd fsH stH = some ["/usr/bin/myelev"] := by
  have h :=
    resolver_tries_usrbin_only fsH stH "myed" "myelev" [] []
      (by decide) (by decide) (by decide) (by decide)
      (by decide) (by decide) (by decide) (by decide)
  refine ⟨?_, ?_⟩
  · rw [h.1]; decide
  · rw [h.2.1]; decide

/-- C7: setting an option to the value it already holds returns the
already-set report code without invoking a save, leaving the stored
configuration unchanged. -/
theorem set_setting_safe_idempotent (fs : FileSys) (st : Settings)
    (opt val : String) (h : st.get opt = val) :
    set_setting_safe fs st opt val = some (1, st, false) := by
  simp [set_setting_safe, h]

/-- C7 (witness): the theorem applied to stB with the editor value it
already holds. -/
theorem set_setting_safe_idempotent_witness :
    set_setting_safe fsB stB "editor" "/usr/bin/ed" =
      some (1, stB, false) :=
  set_setting_safe_idempotent fsB stB "editor" "/usr/bin/ed" (by decide)

/-- C8: the claim states that setting a previously-set option to the empty
value removes the key.  Counterexample: with the editor previously set in
stB, the dispatcher skips the setter for an empty flag value, and calling
the setter directly with the empty value crashes with an uncaught
IndexError (modelled as none); in no case is the key removed. -/
theorem set_empty_value_never_removes :
    editor_flag_selected (some "") = false ∧
    stB.get "editor" = "/usr/bin/ed" ∧
    set_setting_safe fsB stB "editor" "" = none := by
  decide

/-- C8 (amended): setting a previously-set option to the empty value does
not remove the key: the command-line dispatcher treats the empty flag value
as absent and never calls the setter, while a direct call of the setter
with the empty value on an option holding a non-empty value raises an
uncaught IndexError instead of updating the configuration. -/
theorem set_setting_safe_empty_value_fails (fs : FileSys) (st : Settings)
    (opt : String) (h : st.get opt ≠ "") :
    set_setting_safe fs st opt "" = none ∧
    editor_flag_selected (some "") = false := by
  refine ⟨?_, by decide⟩
  have hsp : pySplitWs "" = [] := by decide
  simp [set_setting_safe, hsp, h]

/-- C8 (witness): the amended theorem applied to stB, where the editor is
set. -/
theorem set_setting_safe_empty_value_fails_witness :
    set_setting_safe fsB stB "editor" "" = none ∧
    editor_flag_selected (some "") = false :=
  set_setting_safe_empty_value_fails fsB stB "editor" (by decide)

/-- C9: the claim states that declining the continue-anyway prompt leads to
a distinct exit code that is neither 1 nor the success code.
Counterexample: in fsB the file named missing does not exist and the user
answers no; main falls through with no return value and the process exit
status, via sys.exit(None), is 0, exactly the success code. -/
theorem decline_prompt_exits_zero :
    fsB.pexists "missing" = false ∧
    check_files fsB (fun _ => false) ["missing"] = false ∧
    sys_exit_code
      (main_open fsB ([] : Settings) (fun _ => false) false ["missing"] []) =
      0 := by
  decide

/-- C9 (amended): when quiet is off and the user declines the prompt for
some listed file, main returns no value and the resulting process exit
status is 0, the success code; no distinct cancellation condition is
raised. -/
theorem main_open_cancel_returns_none (fs : FileSys) (st : Settings)
    (answers : String → Bool) (fns eargs : List String)
    (hc : check_files fs answers fns = false) :
    main_open fs st answers false fns eargs = none ∧
    sys_exit_code (main_open fs st answers false fns eargs) = 0 := by
  have h1 : main_open fs st answers false fns eargs = none := by
    simp [main_open, hc]
  exact ⟨h1, by rw [h1]; rfl⟩

/-- C9 (witness): the amended theorem applied to fsB with the missing file
and a user who declines. -/
theorem main_open_cancel_returns_none_witness :
    main_open fsB ([] : Settings) (fun _ => false) false ["missing"] [] =
      none ∧
    sys_exit_code
      (main_open fsB ([] : Settings) (fun _ => false) false ["missing"] []) =
      0 :=
  main_open_cancel_returns_none fsB ([] : Settings) (fun _ => false)
    ["missing"] [] (by decide)

/-- C10: find_filename returns the input itself when it exists or when no
search-directory join exists, and otherwise returns the first existing join
in search-directory order; a returned constructed path always exists. -/
theorem find_filename_first_existing_or_original (fs : FileSys)
    (ps : List String) (s : String) :
    (fs.pexists s = true → find_filename fs ps s = s)
    ∧ ((ps.map (fun p => ospathJoin p s)).find? fs.pexists = none →
        find_filename fs ps s = s)
    ∧ (fs.pexists s = false →
        ∀ c, (ps.map (fun p => ospathJoin p s)).find? fs.pexists = some c →
          find_filename fs ps s = c ∧ fs.pexists c = true) := by
  refine ⟨?_, ?_, ?_⟩
  · intro h
    simp [find_filename, h]
  · intro h
    cases hex : fs.pexists s with
    | true => simp [find_filename, hex]
    | false => simp [find_filename, hex, h]
  · intro hex c hc
    refine ⟨?_, ?_⟩
    · simp [find_filename, hex, hc]
    · exact List.find?_some hc

/-- C10 (witness): the theorem applied to fsG, whose search directory
/opt/bin contains myed. -/
theorem find_filename_first_existing_or_original_witness :
    find_filename fsG ["/opt/bin"] "myed" = "/opt/bin/myed" ∧
    fsG.pexists "/opt/bin/myed" = true :=
  (find_filename_first_existing_or_original fsG ["/opt/bin"] "myed").2.2
    (by decide) "/opt/bin/myed" (by decide)
